import Mathlib

set_option maxHeartbeats 1000000

/-!
Verification of the Marvel knowledge-graph query engine
(`app/kg_query_engin.py`): a shallow embedding of the `KnowledgeGraph`,
`QueryInterpreter` and `GraphExecutor` classes, followed by theorems about
entity recognition, intent dispatch, relation-label resolution and plan
execution.

Modelling conventions:
- Python strings are Lean `String`; `str.lower`, single-character
  `str.replace` and the `in` substring test are modelled character-wise
  (`pyLower`, `pyReplace`, `pyContains`).
- The NetworkX `MultiDiGraph` is a list of named nodes carrying an
  attribute association list, plus a list of `(src, dst, relation)` edges
  in insertion order.
- Fallible operations (`G.nodes[n]` raising `KeyError`, `interpret`
  raising `ValueError`) return `Except`.
- The spaCy recognizer and the sentence-transformer similarity are
  opaque external models; they are abstracted as parameters of the
  interpreter state (`Interp.nlpEnts`, `Interp.sim`), exactly at the two
  places the source calls out to them.
-/

/-- The typographic dash U+2011 that appears literally in
`QueryInterpreter._extract_entity`'s dash normalization. -/
def dashChar : Char := Char.ofNat 8209

/-- Model of Python `str.lower` (ASCII case folding, as `Char.toLower`). -/
def pyLower (s : String) : String := ⟨s.data.map Char.toLower⟩

/-- Model of Python `str.replace(a, b)` for one-character patterns. -/
def pyReplace (s : String) (a b : Char) : String :=
  ⟨s.data.map (fun c => if c = a then b else c)⟩

/-- Does the character list start with `pat`? -/
def charsPrefix : List Char → List Char → Bool
  | [], _ => true
  | _ :: _, [] => false
  | a :: as, b :: bs => a == b && charsPrefix as bs

/-- Does `pat` occur contiguously inside the second list? -/
def charsSubstr (pat : List Char) : List Char → Bool
  | [] => pat.isEmpty
  | c :: cs => charsPrefix pat (c :: cs) || charsSubstr pat cs

/-- Model of the Python substring test `needle in hay`. -/
def pyContains (hay needle : String) : Bool := charsSubstr needle.data hay.data

/-- Model of Python `str.endswith`. -/
def pyEndsWith (s suf : String) : Bool := suf.data.isSuffixOf s.data

/-- A node or edge attribute dictionary, in insertion order. -/
abbrev Attrs := List (String × String)

/-- `dict.get(k)`: first value stored under `k`, if any. -/
def attrGet (attrs : Attrs) (k : String) : Option String :=
  (attrs.find? (fun p => p.1 == k)).map (fun p => p.2)

/-- `KnowledgeGraph` state: the NetworkX `MultiDiGraph`, as the node list
(name, attributes) and the edge list `(src, dst, relation)`, both in
insertion order.  Every edge the class creates carries exactly the
`relation` attribute, so edges store that one string. -/
structure Graph where
  nodes : List (String × Attrs)
  edges : List (String × String × String)
deriving DecidableEq

/-- Membership test `n in G.nodes`. -/
def memNodes (g : Graph) (n : String) : Bool :=
  g.nodes.any (fun p => p.1 == n)

/-- Attribute dictionary of a node, `none` when the node is absent
(`G.nodes[n]` raises `KeyError` in that case). -/
def node_attrs (g : Graph) (n : String) : Option Attrs :=
  (g.nodes.find? (fun p => p.1 == n)).map (fun p => p.2)

/-- `KnowledgeGraph.node_type`: `self.G.nodes[node].get("label", "Unknown")`.
`G.nodes[node]` raises `KeyError` when `node` is not in the graph; the
attribute lookup itself defaults to `"Unknown"`. -/
def node_type (g : Graph) (n : String) : Except String String :=
  match node_attrs g n with
  | none => .error "KeyError"
  | some attrs => .ok ((attrGet attrs "label").getD "Unknown")

/-- `dict` update of one attribute key (NetworkX merges attributes when
`add_node` hits an existing node). -/
def setAttr (attrs : Attrs) (k v : String) : Attrs :=
  if attrs.any (fun p => p.1 == k) then
    attrs.map (fun p => if p.1 == k then (k, v) else p)
  else attrs ++ [(k, v)]

/-- NetworkX `G.add_node(n, **newAttrs)`: create the node, or merge the
new attributes into an existing node's dictionary. -/
def add_node (g : Graph) (n : String) (newAttrs : Attrs) : Graph :=
  if g.nodes.any (fun p => p.1 == n) then
    { g with nodes := g.nodes.map (fun p =>
        if p.1 == n then (p.1, newAttrs.foldl (fun a kv => setAttr a kv.1 kv.2) p.2) else p) }
  else
    { g with nodes := g.nodes ++ [(n, newAttrs)] }

/-- `KnowledgeGraph.add_character`: `self.G.add_node(name, type="Character")`. -/
def add_character (g : Graph) (name : String) : Graph :=
  add_node g name [("type", "Character")]

/-- `KnowledgeGraph.add_team`: `self.G.add_node(name, type="Team")`. -/
def add_team (g : Graph) (name : String) : Graph :=
  add_node g name [("type", "Team")]

/-- `KnowledgeGraph.add_gene`: `self.G.add_node(name, type="Gene")`. -/
def add_gene (g : Graph) (name : String) : Graph :=
  add_node g name [("type", "Gene")]

/-- `KnowledgeGraph.add_power`: `self.G.add_node(name, type="Power")`. -/
def add_power (g : Graph) (name : String) : Graph :=
  add_node g name [("type", "Power")]

/-- NetworkX `G.add_edge(src, dst, relation=rel)`: silently creates
missing endpoint nodes, then appends the edge. -/
def add_edge (g : Graph) (src dst rel : String) : Graph :=
  let g1 := add_node g src []
  let g2 := add_node g1 dst []
  { g2 with edges := g2.edges ++ [(src, dst, rel)] }

/-- `KnowledgeGraph.add_relationship`. -/
def add_relationship (g : Graph) (src dst rel : String) : Graph :=
  add_edge g src dst rel

/-- The raw graph as parsed from GraphML, before `from_graphml`
standardizes it: direction flag, nodes with attributes, and edges with
their original attribute dictionaries. -/
structure RawGraph where
  directed : Bool
  nodes : List (String × Attrs)
  edges : List (String × String × Attrs)

/-- Python `a or b` on an optional string: `None` and the empty string
are falsy and fall through to `b`. -/
def pyOrElse (a : Option String) (b : String) : String :=
  match a with
  | none => b
  | some s => if s = "" then b else s

/-- The edge-relation coalescing chain in `KnowledgeGraph.from_graphml`:
`attrs.get("relation") or attrs.get("label") or attrs.get("type") or
attrs.get("name") or "RELATED_TO"`. -/
def resolveRelation (attrs : Attrs) : String :=
  pyOrElse (attrGet attrs "relation")
    (pyOrElse (attrGet attrs "label")
      (pyOrElse (attrGet attrs "type")
        (pyOrElse (attrGet attrs "name") "RELATED_TO")))

/-- NetworkX `to_directed`: every undirected edge is replaced by the two
opposite directed edges with the same attributes (one edge for a self
loop). -/
def toDirectedEdges (edges : List (String × String × Attrs)) :
    List (String × String × Attrs) :=
  edges.flatMap (fun e => if e.1 = e.2.1 then [e] else [e, (e.2.1, e.1, e.2.2)])

/-- `KnowledgeGraph.from_graphml`: direct the raw graph if needed, copy
every node with its attributes, then copy every edge with its relation
label resolved by `resolveRelation`. -/
def from_graphml (raw : RawGraph) : Graph :=
  let rawEdges := if raw.directed then raw.edges else toDirectedEdges raw.edges
  let g0 : Graph := raw.nodes.foldl (fun g p => add_node g p.1 p.2) ⟨[], []⟩
  rawEdges.foldl (fun g e => add_edge g e.1 e.2.1 (resolveRelation e.2.2)) g0

/-- The relation-resolution rule exactly as the spec words it: check the
candidate attribute names in priority order `relation`, `label`, `type`,
`name` and take the first one *present*, with the sentinel when none is
present.  Kept separate from `resolveRelation` (the code's rule) so the
two can be compared. -/
def specResolveRelation (attrs : Attrs) : String :=
  match attrGet attrs "relation" with
  | some v => v
  | none =>
    match attrGet attrs "label" with
    | some v => v
    | none =>
      match attrGet attrs "type" with
      | some v => v
      | none =>
        match attrGet attrs "name" with
        | some v => v
        | none => "RELATED_TO"

/-- The traversal plan `interpret` builds: a dictionary with exactly
these four fields. -/
structure Plan where
  start_entity : String
  start_type : String
  relation_chain : List String
  target_type : String
deriving DecidableEq

/-- `G.in_edges(n, data=True)` filtered to one relation kind, sources
collected (the executor's reverse-traversal arm). -/
def in_neighbors (g : Graph) (rel n : String) : List String :=
  (g.edges.filter (fun e => e.2.1 == n && e.2.2 == rel)).map (fun e => e.1)

/-- `G.out_edges(n, data=True)` filtered to one relation kind, targets
collected (the executor's forward-traversal arm). -/
def out_neighbors (g : Graph) (rel n : String) : List String :=
  (g.edges.filter (fun e => e.1 == n && e.2.2 == rel)).map (fun e => e.2.1)

/-- One hop of `GraphExecutor.execute`: build `nxt` by scanning, for each
current node, incoming edges when the plan's start type is Power or Team
and outgoing edges otherwise. -/
def hopStep (g : Graph) (entity_type rel : String) (nodes : List String) :
    List String :=
  nodes.foldl
    (fun nxt n =>
      nxt ++ (if entity_type = "Power" ∨ entity_type = "Team"
              then in_neighbors g rel n
              else out_neighbors g rel n))
    []

/-- The executor's loop over the relation chain. -/
def runChain (g : Graph) (entity_type : String) (chain : List String)
    (nodes : List String) : List String :=
  chain.foldl (fun ns rel => hopStep g entity_type rel ns) nodes

/-- `GraphExecutor.execute`. -/
def execute (g : Graph) (plan : Plan) : List String :=
  runChain g plan.start_type plan.relation_chain [plan.start_entity]

/-- A plan is well-formed when its start entity is a node of the graph
and its relation chain is non-empty (spec §7). -/
def wellFormedPlan (g : Graph) (p : Plan) : Prop :=
  memNodes g p.start_entity = true ∧ p.relation_chain ≠ []

/-- `QueryInterpreter` state.  The knowledge graph plus the two opaque
external models: `nlpEnts` abstracts the optional spaCy pipeline
(`None` when spaCy is unavailable; otherwise the entity spans it
proposes for a question), and `sim q k` abstracts
`util.cos_sim(model.encode(q), template_embeddings[k]).item()`. -/
structure Interp where
  kg : Graph
  nlpEnts : Option (String → List String)
  sim : String → String → Rat

/-- The intent catalog keys of `intent_templates`, in Python dict
insertion order. -/
def intentKeys : List String :=
  ["direct_power", "mutation_power", "team", "gene_power", "character_gene"]

/-- The relation chain attached to each catalog intent. -/
def intentChain (k : String) : List String :=
  if k = "direct_power" then ["POSSESSES_POWER"]
  else if k = "mutation_power" then ["HAS_MUTATION", "CONFERS"]
  else if k = "team" then ["MEMBER_OF"]
  else if k = "gene_power" then ["CONFERS"]
  else ["HAS_MUTATION"]

/-- Python `max(keys, key=score)`: scan left to right, replacing the
current best only on a strictly larger score, so the first maximizer
wins. -/
def pyMax (keys : List String) (score : String → Rat) : String :=
  match keys with
  | [] => ""
  | k :: ks => ks.foldl (fun best x => if score x > score best then x else best) k

/-- The per-node condition of `_extract_entity`'s fallback loop: the
lowercased node name, or either dash-normalized variant of it, occurs in
the lowercased question. -/
def fallbackMatch (query node : String) : Bool :=
  let q_low := pyLower query
  let node_lower := pyLower node
  pyContains q_low node_lower
    || pyContains q_low (pyReplace node_lower dashChar '-')
    || pyContains q_low (pyReplace node_lower '-' dashChar)

/-- The fallback substring pass of `_extract_entity`: first node of the
graph (in insertion order) whose name matches the question. -/
def fallback_scan (g : Graph) (query : String) : Option String :=
  (g.nodes.find? (fun p => fallbackMatch query p.1)).map (fun p => p.1)

/-- The spaCy pass of `_extract_entity`: when the pipeline exists, the
first recognized span that is a known node name (spans not in the graph
are discarded). -/
def nlp_pass (it : Interp) (query : String) : Option String :=
  match it.nlpEnts with
  | none => none
  | some ner => (ner query).find? (fun t => memNodes it.kg t)

/-- `QueryInterpreter._extract_entity`: the spaCy pass when it finds
something, else the fallback substring scan. -/
def extract_entity (it : Interp) (query : String) : Option String :=
  (nlp_pass it query).or (fallback_scan it.kg query)

/-- The intent-dispatch block of `QueryInterpreter.interpret` (lines
230-264): returns the relation chain and the intent label chosen for the
recognized entity's type. -/
def classify (it : Interp) (query entity_type : String) :
    List String × String :=
  if entity_type = "Gene" then (["CONFERS"], "gene_power")
  else if entity_type = "Power" then (["POSSESSES_POWER"], "power_character")
  else if entity_type = "Team" then (["MEMBER_OF"], "team_character")
  else if entity_type = "Character" then
    let q_low := pyLower query
    if pyContains q_low "gene" || pyContains q_low "mutation"
        || pyContains q_low "mutant" then
      (["HAS_MUTATION"], "character_gene")
    else
      let intent := pyMax intentKeys (it.sim query)
      (intentChain intent, intent)
  else
    let intent := pyMax intentKeys (it.sim query)
    (intentChain intent, intent)

/-- The one-line `target_type` conditional of `interpret`. -/
def targetTypeOf (intent : String) : String :=
  if pyEndsWith intent "power" then "Power"
  else if intent = "team" then "Team"
  else if intent = "character_gene" then "Gene"
  else if intent = "power_character" ∨ intent = "team_character" then "Character"
  else "Unknown"

/-- `QueryInterpreter.interpret`: extract the entity (raising
`ValueError` when none is found), look up its type, dispatch the intent,
and assemble the four-field plan. -/
def interpret (it : Interp) (query : String) : Except String Plan :=
  match extract_entity it query with
  | none => .error "No known entity found in query. Please clarify."
  | some start_entity =>
    match node_type it.kg start_entity with
    | .error e => .error e
    | .ok entity_type =>
      let rc := classify it query entity_type
      .ok { start_entity := start_entity
            start_type := entity_type
            relation_chain := rc.1
            target_type := targetTypeOf rc.2 }

/-- `True` exactly on `.ok` results (model of "does not raise"). -/
def isOkE {ε α : Type} : Except ε α → Bool
  | .ok _ => true
  | .error _ => false

/-! ## Helper lemmas -/

theorem foldl_append_eq_flatMap {α β : Type} (f : α → List β) :
    ∀ (l : List α) (acc : List β),
      l.foldl (fun a x => a ++ f x) acc = acc ++ l.flatMap f
  | [], acc => by simp
  | x :: xs, acc => by
    simp only [List.foldl_cons, List.flatMap_cons]
    rw [foldl_append_eq_flatMap f xs (acc ++ f x)]
    simp [List.append_assoc]

theorem hopStep_eq_flatMap (g : Graph) (t r : String) (ns : List String) :
    hopStep g t r ns
      = ns.flatMap (fun n =>
          if t = "Power" ∨ t = "Team" then in_neighbors g r n
          else out_neighbors g r n) := by
  unfold hopStep
  rw [foldl_append_eq_flatMap]
  simp

theorem hopStep_nil (g : Graph) (t r : String) : hopStep g t r [] = [] := rfl

theorem runChain_nil_input (g : Graph) (t : String) :
    ∀ chain : List String, runChain g t chain [] = []
  | [] => rfl
  | r :: rs => by
    unfold runChain
    simp only [List.foldl_cons, hopStep_nil]
    exact runChain_nil_input g t rs

theorem runChain_append (g : Graph) (t : String) (l₁ l₂ : List String)
    (ns : List String) :
    runChain g t (l₁ ++ l₂) ns = runChain g t l₂ (runChain g t l₁ ns) := by
  unfold runChain
  exact List.foldl_append ..

theorem fallback_scan_mem {g : Graph} {q e : String}
    (h : fallback_scan g q = some e) : memNodes g e = true := by
  unfold fallback_scan at h
  cases hf : g.nodes.find? (fun p => fallbackMatch q p.1) with
  | none => rw [hf] at h; simp at h
  | some p =>
    rw [hf] at h
    simp only [Option.map_some', Option.some.injEq] at h
    have hmem := List.mem_of_find?_eq_some hf
    subst h
    exact List.any_eq_true.mpr ⟨p, hmem, by simp⟩

theorem nlp_pass_mem {it : Interp} {q t : String}
    (h : nlp_pass it q = some t) : memNodes it.kg t = true := by
  unfold nlp_pass at h
  cases hn : it.nlpEnts with
  | none => simp only [hn] at h; cases h
  | some ner =>
    simp only [hn] at h
    exact List.find?_some h

theorem extract_entity_mem {it : Interp} {q e : String}
    (h : extract_entity it q = some e) : memNodes it.kg e = true := by
  unfold extract_entity at h
  cases hp : nlp_pass it q with
  | none =>
    rw [hp] at h
    exact fallback_scan_mem h
  | some t =>
    rw [hp] at h
    simp only [Option.or_some, Option.some.injEq] at h
    subst h
    exact nlp_pass_mem hp

theorem memNodes_iff_attrs (g : Graph) (n : String) :
    memNodes g n = true ↔ (node_attrs g n).isSome = true := by
  unfold memNodes node_attrs
  rw [Option.isSome_map']
  constructor
  · intro h
    obtain ⟨p, hp, hq⟩ := List.any_eq_true.mp h
    exact List.find?_isSome.mpr ⟨p, hp, hq⟩
  · intro h
    obtain ⟨p, hp, hq⟩ := List.find?_isSome.mp h
    exact List.any_eq_true.mpr ⟨p, hp, hq⟩

theorem node_type_of_attrs {g : Graph} {n : String} {a : Attrs}
    (h : node_attrs g n = some a) :
    node_type g n = .ok ((attrGet a "label").getD "Unknown") := by
  unfold node_type
  rw [h]

theorem node_type_of_absent {g : Graph} {n : String}
    (h : memNodes g n = false) : node_type g n = .error "KeyError" := by
  unfold node_type
  cases ha : node_attrs g n with
  | none => rfl
  | some a =>
    have : memNodes g n = true := (memNodes_iff_attrs g n).mpr (by rw [ha]; rfl)
    rw [h] at this
    cases this

theorem add_node_fresh {g : Graph} {n : String} (attrs : Attrs)
    (h : memNodes g n = false) :
    node_attrs (add_node g n attrs) n = some attrs := by
  unfold memNodes at h
  have hnone : g.nodes.find? (fun p => p.1 == n) = none := by
    rw [List.find?_eq_none]
    intro x hx hpx
    have hc : g.nodes.any (fun p => p.1 == n) = true :=
      List.any_eq_true.mpr ⟨x, hx, hpx⟩
    rw [h] at hc
    cases hc
  unfold add_node node_attrs
  rw [h]
  simp [List.find?_append, hnone]

theorem add_node_edges (g : Graph) (n : String) (attrs : Attrs) :
    (add_node g n attrs).edges = g.edges := by
  unfold add_node
  split <;> rfl

theorem add_edge_edges (g : Graph) (s d r : String) :
    (add_edge g s d r).edges = g.edges ++ [(s, d, r)] := by
  unfold add_edge
  simp only [add_node_edges]

theorem foldl_add_edge_edges :
    ∀ (es : List (String × String × Attrs)) (g0 : Graph),
      (es.foldl (fun g e => add_edge g e.1 e.2.1 (resolveRelation e.2.2)) g0).edges
        = g0.edges ++ es.map (fun e => (e.1, e.2.1, resolveRelation e.2.2))
  | [], g0 => by simp
  | e :: es, g0 => by
    simp only [List.foldl_cons, List.map_cons]
    rw [foldl_add_edge_edges es, add_edge_edges]
    simp [List.append_assoc]

theorem foldl_add_node_edges :
    ∀ (ns : List (String × Attrs)) (g0 : Graph),
      (ns.foldl (fun g p => add_node g p.1 p.2) g0).edges = g0.edges
  | [], _ => rfl
  | p :: ps, g0 => by
    simp only [List.foldl_cons]
    rw [foldl_add_node_edges ps, add_node_edges]

theorem charsSubstr_nil_pat : ∀ l : List Char, charsSubstr [] l = true
  | [] => rfl
  | _ :: _ => by simp [charsSubstr, charsPrefix]

theorem charsPrefix_append (n t : List Char) : charsPrefix n (n ++ t) = true := by
  induction n with
  | nil => rfl
  | cons a as ih => simp [charsPrefix, ih]

theorem charsSubstr_self_append (n b : List Char) :
    charsSubstr n (n ++ b) = true := by
  cases n with
  | nil => exact charsSubstr_nil_pat b
  | cons x xs =>
    have h := charsPrefix_append (x :: xs) b
    rw [List.cons_append] at h
    simp [charsSubstr, h]

theorem charsSubstr_append (n a b : List Char) :
    charsSubstr n (a ++ (n ++ b)) = true := by
  induction a with
  | nil => exact charsSubstr_self_append n b
  | cons c cs ih =>
    rw [List.cons_append]
    cases n with
    | nil => exact charsSubstr_nil_pat _
    | cons x xs =>
      simp only [charsSubstr, Bool.or_eq_true]
      exact Or.inr ih

theorem toLower_eq_dash {c : Char} (h : Char.toLower c = '-') : c = '-' := by
  unfold Char.toLower at h
  simp only [] at h
  by_cases hcond : c.toNat ≥ 65 ∧ c.toNat ≤ 90
  · rw [if_pos hcond] at h
    exfalso
    obtain ⟨h1, h2⟩ := hcond
    generalize hm : c.toNat = m at h1 h2 h
    interval_cases m <;> exact absurd h (by decide)
  · rwa [if_neg hcond] at h

theorem toLower_dashSub (c : Char) :
    Char.toLower (if c = '-' then dashChar else c)
      = (if Char.toLower c = '-' then dashChar else Char.toLower c) := by
  by_cases hc : c = '-'
  · subst hc
    simp only [if_pos rfl]
    have h1 : Char.toLower '-' = '-' := by decide
    rw [h1, if_pos rfl]
    decide
  · rw [if_neg hc, if_neg (fun h => hc (toLower_eq_dash h))]

/-- Lowercasing commutes with replacing the ASCII hyphen by the
typographic dash: neither character is a cased letter. -/
theorem pyLower_pyReplace_dash (s : String) :
    pyLower (pyReplace s '-' dashChar) = pyReplace (pyLower s) '-' dashChar := by
  unfold pyLower pyReplace
  simp only [List.map_map]
  exact congrArg String.mk (List.map_congr_left (fun c _ => toLower_dashSub c))

theorem pyLower_data (s : String) :
    (pyLower s).data = s.data.map Char.toLower := rfl

theorem pyLower_append (s t : String) :
    pyLower (s ++ t) = pyLower s ++ pyLower t := by
  apply congrArg String.mk
  show (s ++ t).data.map Char.toLower
      = (pyLower s).data ++ (pyLower t).data
  rw [String.data_append]
  simp [pyLower_data]

/-! ## Concrete fixtures -/

/-- `Character X —POSSESSES_POWER→ Power Y` (spec §8's reverse-traversal
scenario). -/
def gXY : Graph :=
  ⟨[("X", [("label", "Character")]), ("Y", [("label", "Power")])],
   [("X", "Y", "POSSESSES_POWER")]⟩

/-- `Character W —HAS_MUTATION→ Gene G —CONFERS→ Power P` (spec §8's
multi-hop scenario). -/
def gWGP : Graph :=
  ⟨[("W", [("label", "Character")]), ("G", [("label", "Gene")]),
    ("P", [("label", "Power")])],
   [("W", "G", "HAS_MUTATION"), ("G", "P", "CONFERS")]⟩

/-- One character, no edges at all. -/
def gLone : Graph := ⟨[("A", [("label", "Character")])], []⟩

/-- One node per non-Character kind, plus a character, no edges. -/
def gKinds : Graph :=
  ⟨[("g1", [("label", "Gene")]), ("p1", [("label", "Power")]),
    ("t1", [("label", "Team")]), ("hero", [("label", "Character")])],
   []⟩

/-- An interpreter over `gKinds` with spaCy unavailable and a constant
similarity model. -/
def itKinds : Interp := ⟨gKinds, none, fun _ _ => 0⟩

/-! ## Claims -/

/-- C1: `GraphExecutor.execute` fixes the traversal direction once from
the plan's `start_type` — every hop scans incoming edges and collects
sources when the start type is Power or Team, and outgoing edges
collecting targets otherwise — and on `Character X —POSSESSES_POWER→
Power Y` a plan from `Y` (Power) with chain `[POSSESSES_POWER]` returns
`[X]` while the same chain from `X` (Character) returns `[Y]`. -/
theorem c1_traversal_direction (g : Graph) (p : Plan) :
    execute g p
      = p.relation_chain.foldl
          (fun ns rel =>
            ns.flatMap ((if p.start_type = "Power" ∨ p.start_type = "Team"
                         then in_neighbors else out_neighbors) g rel))
          [p.start_entity]
    ∧ execute gXY ⟨"Y", "Power", ["POSSESSES_POWER"], "Character"⟩ = ["X"]
    ∧ execute gXY ⟨"X", "Character", ["POSSESSES_POWER"], "Power"⟩ = ["Y"] := by
  refine ⟨?_, by decide, by decide⟩
  have hf : (fun (ns : List String) (rel : String) => hopStep g p.start_type rel ns)
      = (fun ns rel =>
          ns.flatMap ((if p.start_type = "Power" ∨ p.start_type = "Team"
                       then in_neighbors else out_neighbors) g rel)) := by
    funext ns rel
    rw [hopStep_eq_flatMap]
    by_cases hc : p.start_type = "Power" ∨ p.start_type = "Team"
    · simp only [if_pos hc]
    · simp only [if_neg hc]
  show runChain g p.start_type p.relation_chain [p.start_entity] = _
  unfold runChain
  rw [hf]

/-- C6: each hop of a multi-hop chain expands the working set produced
by the previous hop, in order; on `Character W —HAS_MUTATION→ Gene G
—CONFERS→ Power P`, the plan from `W` with chain
`[HAS_MUTATION, CONFERS]` returns exactly `[P]`. -/
theorem c6_multihop_chain :
    (∀ (g : Graph) (t r : String) (rs : List String) (ns : List String),
        runChain g t (r :: rs) ns = runChain g t rs (hopStep g t r ns))
    ∧ execute gWGP ⟨"W", "Character", ["HAS_MUTATION", "CONFERS"], "Power"⟩
        = ["P"] :=
  ⟨fun _ _ _ _ _ => rfl, by decide⟩

/-- C7: for a well-formed plan, once the working set is empty at any
prefix of the chain the final result is the empty list (a valid answer,
not an error). -/
theorem c7_empty_shortcircuit (g : Graph) (p : Plan) (l₁ l₂ : List String)
    (hwf : wellFormedPlan g p)
    (hsplit : p.relation_chain = l₁ ++ l₂)
    (hempty : runChain g p.start_type l₁ [p.start_entity] = []) :
    execute g p = [] := by
  unfold execute
  rw [hsplit, runChain_append, hempty]
  exact runChain_nil_input g p.start_type l₂

/-- Witness for C7: a well-formed single-hop plan whose hop matches no
edge returns `[]`. -/
theorem c7_witness :
    wellFormedPlan gLone ⟨"A", "Character", ["POSSESSES_POWER"], "Power"⟩
    ∧ runChain gLone "Character" ["POSSESSES_POWER"] ["A"] = []
    ∧ execute gLone ⟨"A", "Character", ["POSSESSES_POWER"], "Power"⟩ = [] :=
  ⟨⟨by decide, by decide⟩, by decide,
   c7_empty_shortcircuit gLone ⟨"A", "Character", ["POSSESSES_POWER"], "Power"⟩
     ["POSSESSES_POWER"] [] ⟨by decide, by decide⟩ rfl (by decide)⟩

/-- Counterexample to C2 as stated: `node_type` does raise for a name
that is not a node — `G.nodes[node]` is a `KeyError` on the empty
graph. -/
theorem c2_counterexample :
    memNodes ⟨[], []⟩ "X" = false
    ∧ node_type ⟨[], []⟩ "X" = .error "KeyError" :=
  ⟨rfl, rfl⟩

/-- C2 (amended): `node_type` succeeds exactly on names that are nodes
of the graph, returning the node's `label` attribute or the sentinel
`"Unknown"` when the attribute is absent; for any other name it raises
`KeyError`. -/
theorem c2_node_type_amended (g : Graph) (n : String) :
    (isOkE (node_type g n) = true ↔ memNodes g n = true)
    ∧ (∀ a : Attrs, node_attrs g n = some a →
        node_type g n = .ok ((attrGet a "label").getD "Unknown")) := by
  constructor
  · rw [memNodes_iff_attrs]
    cases ha : node_attrs g n with
    | none => simp [node_type, ha, isOkE]
    | some a => simp [node_type, ha, isOkE]
  · intro a ha
    exact node_type_of_attrs ha

/-- Witness for C2 (amended), at a node that carries only a `type`
attribute. -/
theorem c2_witness :
    node_attrs ⟨[("N", [("type", "Gene")])], []⟩ "N" = some [("type", "Gene")]
    ∧ (isOkE (node_type ⟨[("N", [("type", "Gene")])], []⟩ "N") = true
        ↔ memNodes ⟨[("N", [("type", "Gene")])], []⟩ "N" = true)
    ∧ node_type ⟨[("N", [("type", "Gene")])], []⟩ "N" = .ok "Unknown" :=
  ⟨rfl, (c2_node_type_amended ⟨[("N", [("type", "Gene")])], []⟩ "N").1,
   (c2_node_type_amended ⟨[("N", [("type", "Gene")])], []⟩ "N").2
     [("type", "Gene")] rfl⟩

/-- C10: every construction helper stores the node's kind under the
attribute key `type`, while `node_type` reads the key `label`; hence a
node added solely through a helper reads back as `"Unknown"`. -/
theorem c10_helpers_type_vs_label (g : Graph) (n : String)
    (h : memNodes g n = false) :
    (node_attrs (add_character g n) n = some [("type", "Character")]
      ∧ node_type (add_character g n) n = .ok "Unknown")
    ∧ (node_attrs (add_team g n) n = some [("type", "Team")]
      ∧ node_type (add_team g n) n = .ok "Unknown")
    ∧ (node_attrs (add_gene g n) n = some [("type", "Gene")]
      ∧ node_type (add_gene g n) n = .ok "Unknown")
    ∧ (node_attrs (add_power g n) n = some [("type", "Power")]
      ∧ node_type (add_power g n) n = .ok "Unknown") := by
  have hc := add_node_fresh (g := g) (n := n) [("type", "Character")] h
  have ht := add_node_fresh (g := g) (n := n) [("type", "Team")] h
  have hg := add_node_fresh (g := g) (n := n) [("type", "Gene")] h
  have hp := add_node_fresh (g := g) (n := n) [("type", "Power")] h
  exact ⟨⟨hc, node_type_of_attrs hc⟩, ⟨ht, node_type_of_attrs ht⟩,
         ⟨hg, node_type_of_attrs hg⟩, ⟨hp, node_type_of_attrs hp⟩⟩

/-- Witness for C10 on a fresh node of the empty graph. -/
theorem c10_witness :
    memNodes ⟨[], []⟩ "A" = false
    ∧ node_type (add_character ⟨[], []⟩ "A") "A" = .ok "Unknown"
    ∧ node_type (add_gene ⟨[], []⟩ "A") "A" = .ok "Unknown" :=
  ⟨rfl, ((c10_helpers_type_vs_label ⟨[], []⟩ "A" rfl).1).2,
   ((c10_helpers_type_vs_label ⟨[], []⟩ "A" rfl).2.2.1).2⟩

theorem attrGet_mem_values {attrs : Attrs} {k w : String}
    (h : attrGet attrs k = some w) : w ∈ attrs.map Prod.snd := by
  unfold attrGet at h
  cases hf : attrs.find? (fun p => p.1 == k) with
  | none => rw [hf] at h; cases h
  | some p =>
    rw [hf] at h
    simp only [Option.map_some', Option.some.injEq] at h
    subst h
    exact List.mem_map_of_mem _ (List.mem_of_find?_eq_some hf)

/-- Counterexample to C5 as stated: Python's `or` chain skips *falsy*
values, not just absent keys, so a relation stored only under `type`
with the empty-string value resolves to the sentinel `RELATED_TO`, not
to the stored value (which the spec's presence-priority reading would
return). -/
theorem c5_counterexample :
    (from_graphml ⟨true, [("a", []), ("b", [])],
        [("a", "b", [("type", "")])]⟩).edges
      = [("a", "b", "RELATED_TO")]
    ∧ specResolveRelation [("type", "")] = ""
    ∧ ("RELATED_TO" : String) ≠ "" :=
  ⟨rfl, rfl, by decide⟩

/-- C5 (amended): `from_graphml` resolves every edge's relation label by
taking the first *non-empty* value among the attributes `relation`,
`label`, `type`, `name` in that order (Python truthiness: absent keys
and empty strings both fall through), assigning `RELATED_TO` when all
are absent or empty; on attribute dictionaries whose values are all
non-empty this agrees with the spec's presence-priority rule, and a
relation stored only under `type` with a non-empty value resolves to
that value. -/
theorem c5_relation_resolution (raw : RawGraph) (attrs : Attrs) (v : String)
    (hne : ∀ k w, attrGet attrs k = some w → w ≠ "") (hv : v ≠ "") :
    (from_graphml raw).edges
      = (if raw.directed then raw.edges else toDirectedEdges raw.edges).map
          (fun e => (e.1, e.2.1, resolveRelation e.2.2))
    ∧ resolveRelation attrs = specResolveRelation attrs
    ∧ resolveRelation [("type", v)] = v := by
  refine ⟨?_, ?_, ?_⟩
  · unfold from_graphml
    rw [foldl_add_edge_edges, foldl_add_node_edges]
    rfl
  · unfold resolveRelation specResolveRelation
    cases h1 : attrGet attrs "relation" with
    | some s => simp [pyOrElse, hne _ _ h1]
    | none =>
      cases h2 : attrGet attrs "label" with
      | some s => simp [pyOrElse, hne _ _ h2]
      | none =>
        cases h3 : attrGet attrs "type" with
        | some s => simp [pyOrElse, hne _ _ h3]
        | none =>
          cases h4 : attrGet attrs "name" with
          | some s => simp [pyOrElse, hne _ _ h4]
          | none => simp [pyOrElse]
  · have h1 : attrGet [("type", v)] "relation" = none := rfl
    have h2 : attrGet [("type", v)] "label" = none := rfl
    have h3 : attrGet [("type", v)] "type" = some v := rfl
    have h4 : attrGet [("type", v)] "name" = none := rfl
    unfold resolveRelation
    rw [h1, h2, h3, h4]
    simp [pyOrElse, hv]

/-- Witness for C5 (amended) on a directed raw graph whose single edge
stores the relation only under the `type` attribute. -/
theorem c5_witness :
    (∀ k w, attrGet [("type", "CONFERS")] k = some w → w ≠ "")
    ∧ ("CONFERS" : String) ≠ ""
    ∧ (from_graphml ⟨true, [("a", []), ("b", [])],
          [("a", "b", [("type", "CONFERS")])]⟩).edges
        = [("a", "b", [("type", "CONFERS")])].map
            (fun e => (e.1, e.2.1, resolveRelation e.2.2))
    ∧ resolveRelation [("type", "CONFERS")]
        = specResolveRelation [("type", "CONFERS")]
    ∧ resolveRelation [("type", "CONFERS")] = "CONFERS" := by
  have hne : ∀ k w, attrGet [("type", "CONFERS")] k = some w → w ≠ "" := by
    intro k w h
    have hm := attrGet_mem_values h
    simp only [List.map_cons, List.map_nil, List.mem_singleton] at hm
    subst hm
    decide
  have h := c5_relation_resolution
      ⟨true, [("a", []), ("b", [])], [("a", "b", [("type", "CONFERS")])]⟩
      [("type", "CONFERS")] "CONFERS" hne (by decide)
  exact ⟨hne, by decide, h.1, h.2.1, h.2.2⟩

/-- C3: `interpret` fails exactly when the entity recognizer finds no
known entity in the question (the `ValueError` at the top of
`interpret` is its only failure: the recognizer only ever returns names
that are nodes, so the subsequent `node_type` lookup cannot raise), and
`execute` always produces a result list on a well-formed plan. -/
theorem c3_error_policy (it : Interp) (q : String) (g : Graph) (p : Plan)
    (hwf : wellFormedPlan g p) :
    (isOkE (interpret it q) = true ↔ (extract_entity it q).isSome = true)
    ∧ ∃ r : List String, execute g p = r := by
  refine ⟨?_, ⟨execute g p, rfl⟩⟩
  cases hx : extract_entity it q with
  | none => simp [interpret, hx, isOkE]
  | some e =>
    have hmem := extract_entity_mem hx
    have hsome := (memNodes_iff_attrs it.kg e).mp hmem
    cases ha : node_attrs it.kg e with
    | none => rw [ha] at hsome; cases hsome
    | some a =>
      have hnt := node_type_of_attrs ha
      simp [interpret, hx, hnt, isOkE]

/-- Witness for C3 with a question naming a Gene node. -/
theorem c3_witness :
    wellFormedPlan gKinds ⟨"g1", "Gene", ["CONFERS"], "Power"⟩
    ∧ (isOkE (interpret itKinds "g1") = true
        ↔ (extract_entity itKinds "g1").isSome = true)
    ∧ ∃ r : List String, execute gKinds ⟨"g1", "Gene", ["CONFERS"], "Power"⟩ = r :=
  ⟨⟨by decide, by decide⟩,
   (c3_error_policy itKinds "g1" gKinds ⟨"g1", "Gene", ["CONFERS"], "Power"⟩
     ⟨by decide, by decide⟩).1,
   (c3_error_policy itKinds "g1" gKinds ⟨"g1", "Gene", ["CONFERS"], "Power"⟩
     ⟨by decide, by decide⟩).2⟩

/-- C4: whatever the question's phrasing and whatever the similarity
model says, an entity of kind Gene yields chain `[CONFERS]` (intent
`gene_power`), kind Power yields `[POSSESSES_POWER]`
(`power_character`) and kind Team yields `[MEMBER_OF]`
(`team_character`): the semantic-similarity fallback is bypassed (the
interpreter's `sim` model is arbitrary here). -/
theorem c4_forced_dispatch (it : Interp) (q e : String)
    (he : extract_entity it q = some e) :
    (node_type it.kg e = .ok "Gene" →
      interpret it q = .ok ⟨e, "Gene", ["CONFERS"], "Power"⟩
      ∧ (classify it q "Gene").2 = "gene_power")
    ∧ (node_type it.kg e = .ok "Power" →
      interpret it q = .ok ⟨e, "Power", ["POSSESSES_POWER"], "Character"⟩
      ∧ (classify it q "Power").2 = "power_character")
    ∧ (node_type it.kg e = .ok "Team" →
      interpret it q = .ok ⟨e, "Team", ["MEMBER_OF"], "Character"⟩
      ∧ (classify it q "Team").2 = "team_character") := by
  refine ⟨fun ht => ⟨?_, rfl⟩, fun ht => ⟨?_, rfl⟩, fun ht => ⟨?_, rfl⟩⟩
  · simp only [interpret, he, ht]
    rfl
  · simp only [interpret, he, ht]
    rfl
  · simp only [interpret, he, ht]
    rfl

/-- Witness for C4 over `gKinds` (spaCy unavailable, constant
similarity). -/
theorem c4_witness :
    extract_entity itKinds "g1" = some "g1"
    ∧ interpret itKinds "g1" = .ok ⟨"g1", "Gene", ["CONFERS"], "Power"⟩
    ∧ interpret itKinds "p1" = .ok ⟨"p1", "Power", ["POSSESSES_POWER"], "Character"⟩
    ∧ interpret itKinds "t1" = .ok ⟨"t1", "Team", ["MEMBER_OF"], "Character"⟩ :=
  ⟨rfl,
   ((c4_forced_dispatch itKinds "g1" "g1" rfl).1 rfl).1,
   ((c4_forced_dispatch itKinds "p1" "p1" rfl).2.1 rfl).1,
   ((c4_forced_dispatch itKinds "t1" "t1" rfl).2.2 rfl).1⟩

/-- C9: for a Character entity, a question containing any of the
literal tokens "gene", "mutation" or "mutant" (case-insensitively, via
the lowercased question) is dispatched to intent `character_gene` with
chain `[HAS_MUTATION]`, never reaching the similarity fallback (`sim`
is arbitrary). -/
theorem c9_mutation_keywords (it : Interp) (q e : String)
    (he : extract_entity it q = some e)
    (ht : node_type it.kg e = .ok "Character")
    (hw : pyContains (pyLower q) "gene" = true
        ∨ pyContains (pyLower q) "mutation" = true
        ∨ pyContains (pyLower q) "mutant" = true) :
    interpret it q = .ok ⟨e, "Character", ["HAS_MUTATION"], "Gene"⟩
    ∧ (classify it q "Character").2 = "character_gene" := by
  have hcond : (pyContains (pyLower q) "gene" || pyContains (pyLower q) "mutation"
      || pyContains (pyLower q) "mutant") = true := by
    rcases hw with h | h | h <;> simp [h]
  have hcls : classify it q "Character" = (["HAS_MUTATION"], "character_gene") := by
    unfold classify
    rw [if_neg (by decide), if_neg (by decide), if_neg (by decide), if_pos rfl]
    simp only [hcond, if_true]
  constructor
  · simp only [interpret, he, ht, hcls]
    rfl
  · rw [hcls]

/-- Witness for C9: "hero mutation?" about a Character node. -/
theorem c9_witness :
    extract_entity itKinds "hero mutation?" = some "hero"
    ∧ node_type gKinds "hero" = .ok "Character"
    ∧ pyContains (pyLower "hero mutation?") "mutation" = true
    ∧ interpret itKinds "hero mutation?"
        = .ok ⟨"hero", "Character", ["HAS_MUTATION"], "Gene"⟩ :=
  ⟨rfl, rfl, rfl,
   (c9_mutation_keywords itKinds "hero mutation?" "hero" rfl rfl
     (Or.inr (Or.inl rfl))).1⟩

/-- C8: the fallback substring pass is invariant under dash variant and
letter case — for a vocabulary entry containing a hyphen, a question
mentioning the name in any letter case and with either the ASCII hyphen
or the typographic dash makes that entry's match test succeed, and the
fallback scan then finds an entity whenever the entry is in the
graph. -/
theorem c8_dash_case_invariance (g : Graph) (name v pre post : String)
    (hdash : ('-' : Char) ∈ name.data)
    (hv : pyLower v = pyLower name
        ∨ pyLower v = pyLower (pyReplace name '-' dashChar)) :
    fallbackMatch (pre ++ v ++ post) name = true
    ∧ (memNodes g name = true →
        (fallback_scan g (pre ++ v ++ post)).isSome = true) := by
  have hq : (pyLower (pre ++ v ++ post)).data
      = (pyLower pre).data ++ ((pyLower v).data ++ (pyLower post).data) := by
    rw [pyLower_append, pyLower_append]
    simp [String.data_append]
  have key : ∀ needle : String, (pyLower v).data = needle.data →
      pyContains (pyLower (pre ++ v ++ post)) needle = true := by
    intro needle hnd
    unfold pyContains
    rw [hq, hnd]
    exact charsSubstr_append needle.data _ _
  have hmatch : fallbackMatch (pre ++ v ++ post) name = true := by
    unfold fallbackMatch
    rcases hv with h | h
    · have h1 := key (pyLower name) (congrArg String.data h)
      simp [h1]
    · have h2 : pyLower v = pyReplace (pyLower name) '-' dashChar := by
        rw [h, pyLower_pyReplace_dash]
      have h3 := key (pyReplace (pyLower name) '-' dashChar)
        (congrArg String.data h2)
      simp [h3]
  refine ⟨hmatch, fun hmem => ?_⟩
  obtain ⟨pnode, hpmem, hpeq⟩ := List.any_eq_true.mp hmem
  have hpn : pnode.1 = name := by simpa using hpeq
  unfold fallback_scan
  rw [Option.isSome_map']
  apply List.find?_isSome.mpr
  exact ⟨pnode, hpmem, by rw [hpn]; exact hmatch⟩

/-- Witness for C8: the question writes "Spider-Man" in upper case with
the typographic dash, the vocabulary stores it canonically. -/
theorem c8_witness :
    (('-' : Char) ∈ "Spider-Man".data
      ∧ pyLower (pyReplace "SPIDER-MAN" '-' dashChar)
          = pyLower (pyReplace "Spider-Man" '-' dashChar))
    ∧ fallbackMatch ("who is " ++ pyReplace "SPIDER-MAN" '-' dashChar ++ "?")
        "Spider-Man" = true
    ∧ (fallback_scan ⟨[("Spider-Man", [("label", "Character")])], []⟩
        ("who is " ++ pyReplace "SPIDER-MAN" '-' dashChar ++ "?")).isSome
        = true := by
  have h := c8_dash_case_invariance
      ⟨[("Spider-Man", [("label", "Character")])], []⟩
      "Spider-Man" (pyReplace "SPIDER-MAN" '-' dashChar) "who is " "?"
      (by decide) (Or.inr (by decide))
  exact ⟨⟨by decide, by decide⟩, h.1, h.2 (by decide)⟩
